import Mathlib

/-!
# Shallow embedding of mail-reply-smith (`src/email_poller.py`)

This file embeds the mail-triage daemon of `mail-reply-smith` in Lean 4 and
proves properties of its fetch → match → act → acknowledge pipeline.

Modelling conventions:
* Python strings are `List Char` (`Str` below); `a in b` (substring test) is
  list-infix containment; single-character `str.replace(c, "")` is `filter`.
* The external collaborators (IMAP store, SMTP relay) are oracles: a
  `StoreBehavior` record says which store operations succeed and which
  messages are delivered, and a `sendOk` function says whether the SMTP send
  of a given message succeeds.
* `email.utils.parseaddr` is a stdlib collaborator; an `InboundMsg` carries
  its output, i.e. the already-parsed sender display name and sender address
  (either of which may contain arbitrary characters, including newlines,
  since `parseaddr` can return quoted local-parts with embedded newlines).
* `email.message.EmailMessage.__setitem__` under the default policy raises
  `ValueError` when a header value contains a linefeed or carriage return;
  header assignment is therefore modelled as a fallible `setHeader` step and
  message composition returns `Except`.
* Charset decoding with `errors="ignore"` is abstracted: part payloads are
  carried as already-decoded strings (`Option Str`, `none` for a missing
  payload, `[]` for an empty one - both falsy in Python).
-/

/-- Python strings, modelled as lists of characters. -/
abbrev Str := List Char

/-- Python `needle in hay` on strings: substring containment (case-sensitive). -/
def strContains (hay needle : Str) : Bool := decide (needle <:+: hay)

/-- Python `s.lower()`. -/
def lowerStr (s : Str) : Str := s.map Char.toLower

/-- Characters removed by Python `str.strip()` (`string.whitespace`). -/
def pyWhitespace (c : Char) : Bool :=
  c = ' ' || c = '\t' || c = '\n' || c = '\r' || c = '\x0b' || c = '\x0c'

/-- Python `s.strip()`: drop leading and trailing whitespace. -/
def pyStrip (s : Str) : Str :=
  ((s.dropWhile pyWhitespace).reverse.dropWhile pyWhitespace).reverse

/-- Python `s.replace(c, "")` for a single-character pattern: remove every
occurrence of `c`. -/
def removeChar (c : Char) (s : Str) : Str := s.filter (fun a => a ≠ c)

/-- `EmailPoller.sanitize_header`:
`str(value).strip().replace("\n", "").replace("\r", "")`. -/
def sanitize_header (s : Str) : Str :=
  removeChar '\r' (removeChar '\n' (pyStrip s))

/-- A leaf part of a multipart message body, as seen by `msg.walk()`:
its content type, its `Content-Disposition` header (if any), and its
payload decoded per the part charset (`none` when `get_payload` returns
`None`, `[]` when it returns an empty byte string). -/
structure EmailPart where
  content_type : Str
  content_disposition : Option Str
  payload : Option Str
deriving DecidableEq, Repr

/-- The body of an inbound message: either multipart (a list of leaf parts
in `walk()` order) or a single part with one content type and payload. -/
inductive MsgBody where
  | multipart (parts : List EmailPart)
  | single (content_type : Str) (payload : Option Str)
deriving DecidableEq, Repr

/-- Logical view of one fetched inbound message. `senderName` and
`senderEmail` are the two components of `parseaddr(msg.get("From", ""))`;
`subject` is the raw `Subject` header (`none` when the header is absent,
in which case the code substitutes `"No Subject"`). -/
structure InboundMsg where
  senderName : Str
  senderEmail : Str
  subject : Option Str
  body : MsgBody
deriving DecidableEq, Repr

/-- One filter rule: a Python dict with optional keys
`sender_email_contains`, `action` and `forward_to`. -/
structure Rule where
  sender_email_contains : Option (List Str)
  action : Option Str
  forward_to : Option Str
deriving DecidableEq, Repr

/-- `EmailPoller._match_rule`: the rule matches iff it has a
`sender_email_contains` key and some listed substring occurs (case-sensitive)
in the address part of the parsed `From` header. Rules without that key
(unknown predicate kinds) never match. -/
def match_rule (msg : InboundMsg) (rule : Rule) : Bool :=
  match rule.sender_email_contains with
  | some conds => conds.any (fun condition => strContains msg.senderEmail condition)
  | none => false

/-- The rule-scanning loop of `EmailPoller.fetch_emails`: try the rules in
list order and stop at the first whose predicate holds (`break`). -/
def matchFirst (filters : List Rule) (msg : InboundMsg) : Option Rule :=
  filters.find? (fun rule => match_rule msg rule)

/-- Run-relevant slice of the configuration dictionary. -/
structure Config where
  transport : Str
  fetch_interval_seconds : Nat
  select_folder : Str
  keep_unseen_count : Option Nat
  filters : List Rule
  smtp_user : Str
deriving DecidableEq, Repr

/-- True iff a header value contains no carriage return and no linefeed. -/
def headerClean (s : Str) : Bool := s.all (fun c => c ≠ '\n' && c ≠ '\r')

/-- `EmailMessage.__setitem__` under the default policy: storing a header
value containing a linefeed or carriage return raises
`ValueError("Header values may not contain linefeed or carriage return
characters")`; otherwise the value is stored as given. -/
def setHeader (v : Str) : Except Unit Str :=
  if headerClean v then Except.ok v else Except.error ()

/-- `email.utils.formataddr((name, addr))`: `addr` alone when the name is
empty; otherwise the display name (quoted, with backslash escaping, when it
contains a special character) followed by `<addr>`. -/
def formataddr (name addr : Str) : Str :=
  if name.isEmpty then addr
  else
    let specials : Str := ("()<>@,:;.\"[]".toList)
    if name.any (fun c => specials.contains c) then
      let escaped := name.flatMap (fun c => if c = '\\' || c = '"' then ['\\', c] else [c])
      ('"' :: escaped) ++ ("\" <".toList) ++ addr ++ [('>' : Char)]
    else name ++ (" <".toList) ++ addr ++ [('>' : Char)]

/-- `"attachment" in content_disposition.lower()` with the header defaulted
to the empty string. -/
def isAttachment (p : EmailPart) : Bool :=
  strContains (lowerStr (p.content_disposition.getD [])) ("attachment".toList)

/-- `if not payload: continue` - a part is usable only when its payload is
present and non-empty. -/
def partUsable (p : EmailPart) : Bool :=
  match p.payload with
  | none => false
  | some s => !s.isEmpty

/-- The `msg.walk()` loop of `EmailPoller.forward_email`: scan the parts in
order, skip attachment-flagged and payload-less parts, keep the first
`text/plain` payload and the first `text/html` payload encountered. -/
def walkParts : List EmailPart → Option Str × Option Str → Option Str × Option Str
  | [], acc => acc
  | p :: rest, (t, h) =>
    if isAttachment p then walkParts rest (t, h)
    else match p.payload with
      | none => walkParts rest (t, h)
      | some s =>
        if s.isEmpty then walkParts rest (t, h)
        else if p.content_type = ("text/plain".toList) ∧ t = none then
          walkParts rest (some s, h)
        else if p.content_type = ("text/html".toList) ∧ h = none then
          walkParts rest (t, some s)
        else walkParts rest (t, h)

/-- Body-content extraction of `EmailPoller.forward_email`: the multipart
branch walks the parts; the single-part branch uses the sole payload as HTML
when the content type is `text/html` and as plain text otherwise. -/
def bodyContents : MsgBody → Option Str × Option Str
  | .multipart parts => walkParts parts (none, none)
  | .single ct payload =>
    match payload with
    | some s =>
      if !s.isEmpty then
        if ct = ("text/html".toList) then (none, some s) else (some s, none)
      else (none, none)
    | none => (none, none)

/-- The footer block appended to every forwarded body: separator line,
original sender name and address (unsanitized, from `parseaddr`), and the
sanitized original subject. -/
def footer (msg : InboundMsg) : Str :=
  ("\n\n---------- Forwarded message ----------\n".toList)
    ++ ("From: ".toList) ++ msg.senderName ++ [(' ' : Char)] ++ msg.senderEmail
    ++ ("\nSubject: ".toList)
    ++ sanitize_header (msg.subject.getD ("No Subject".toList))
    ++ [('\n' : Char)]

/-- `footer.replace(chr(10), '<br>')`. -/
def footerHtml (msg : InboundMsg) : Str :=
  ("<br><br>".toList)
    ++ (footer msg).flatMap (fun c => if c = '\n' then ("<br>".toList) else [c])

/-- The composed outbound message: the four headers set by
`forward_email` plus the assembled plain-text body and optional HTML
alternative. -/
structure OutMsg where
  from_ : Str
  toAddr : Str
  subject : Str
  replyTo : Str
  textBody : Str
  htmlBody : Option Str
deriving DecidableEq, Repr

/-- The compose phase of `EmailPoller.forward_email`: build the headers (each
assignment may raise on an embedded CR/LF, modelled by `setHeader`), extract
the first plain/HTML contents, fall back to the literal `"Empty content"`
when neither exists, and append the footer to the plain-text body (and, when
HTML content exists, the `<br>`-converted footer to the HTML body). -/
def composeForward (msg : InboundMsg) (user forward_to : Str) : Except Unit OutMsg := do
  let fromV ← setHeader (formataddr (sanitize_header msg.senderName) user)
  let toV ← setHeader forward_to
  let subjV ← setHeader (("Fwd: ".toList) ++ sanitize_header (msg.subject.getD ("No Subject".toList)))
  let replyToV ← setHeader msg.senderEmail
  let tc := (bodyContents msg.body).1
  let hc := (bodyContents msg.body).2
  let text_content := if tc = none ∧ hc = none then some ("Empty content".toList) else tc
  let text_body := (text_content.getD []) ++ footer msg
  let html_body := hc.map (fun h => h ++ footerHtml msg)
  Except.ok { from_ := fromV, toAddr := toV, subject := subjV, replyTo := replyToV,
              textBody := text_body, htmlBody := html_body }

/-- Result of `EmailPoller.forward_email`: the composed message together with
whether the SMTP send succeeded. The SMTP block is wrapped in
`try/except` *inside* `forward_email`, so a send failure is only logged:
the function returns normally either way, and its caller cannot tell a
failed send from a successful one. Only a compose-phase exception (e.g. a
header value with an embedded newline) propagates to the caller. -/
structure Forwarded where
  message : OutMsg
  sendSucceeded : Bool
deriving DecidableEq, Repr

/-- `EmailPoller.forward_email`: compose, then attempt the SMTP send,
swallowing any send error. -/
def forward_email (msg : InboundMsg) (user forward_to : Str) (sendOk : Bool) :
    Except Unit Forwarded := do
  let out ← composeForward msg user forward_to
  Except.ok { message := out, sendSucceeded := sendOk }

example : sanitize_header ("  a\nb\rc  ".toList) = ("abc".toList) := by decide

example :
    (composeForward
      { senderName := ("Bo\nss".toList), senderEmail := ("boss@co.x".toList),
        subject := some ("Hi\nthere".toList), body := .single ("text/plain".toList) (some ("hey".toList)) }
      ("me@relay".toList) ("dest@x".toList)).isOk = true := by decide

/-- Result of `EmailPoller._execute_action` for one matched message.
`forwardDone f acked`: `forward_email` returned normally (compose
succeeded), `f` records the send outcome, and `acked` says whether
`ack_email` was then called - which it always is, because `forward_email`
swallows send errors. `composeFailed`: `forward_email` raised during
composition and the `except` branch of `_execute_action` skipped the ack.
`noForwardTo`: the rule has `action: forward` but no `forward_to` key.
`notImplemented`: the rule's action is missing or not `forward`. -/
inductive ActionResult where
  | forwardDone (f : Forwarded) (acked : Bool)
  | composeFailed
  | noForwardTo
  | notImplemented
deriving DecidableEq, Repr

/-- `EmailPoller._execute_action`. -/
def execute_action (rule : Rule) (msg : InboundMsg) (user : Str) (sendOk : Bool) :
    ActionResult :=
  if rule.action = some ("forward".toList) then
    match rule.forward_to with
    | some forward_to =>
      match forward_email msg user forward_to sendOk with
      | Except.ok f => ActionResult.forwardDone f true
      | Except.error _ => ActionResult.composeFailed
    | none => ActionResult.noForwardTo
  else ActionResult.notImplemented

/-- Per-message outcome of one cycle of `EmailPoller.fetch_emails`:
a matched message takes the action path (`is_processed = True`), an
unmatched one is either force-acknowledged or left unseen. -/
inductive Outcome where
  | matched (r : Rule) (res : ActionResult)
  | forceAcked
  | leftUnseen
deriving DecidableEq, Repr

/-- Whether a cycle outcome marked the message's `\Seen` flag. -/
def markedSeen : Outcome → Bool
  | .matched _ (.forwardDone _ a) => a
  | .matched _ _ => false
  | .forceAcked => true
  | .leftUnseen => false

/-- The send outcome recorded for a message, when a forward was attempted. -/
def sentFlag : Outcome → Option Bool
  | .matched _ (.forwardDone f _) => some f.sendSucceeded
  | _ => none

/-- The per-message loop of `EmailPoller.fetch_emails`: `total` is
`len(emails)`, `k` is `keep_unseen_count`, and `fwd`/`fAck` are the running
`forward_acked_count` and `force_acked_count`. A matched message runs
`_execute_action` and increments `forward_acked_count` (whether or not the
action succeeded); an unmatched message is force-acknowledged exactly when
`remaining_emails = total - (fwd + fAck)` exceeds `k`. -/
def processEmails (filters : List Rule) (user : Str) (sendOk : InboundMsg → Bool)
    (total k : Nat) : List InboundMsg → Nat → Nat → List Outcome × Nat × Nat
  | [], fwd, fAck => ([], fwd, fAck)
  | msg :: rest, fwd, fAck =>
    match matchFirst filters msg with
    | some r =>
      let res := execute_action r msg user (sendOk msg)
      let p := processEmails filters user sendOk total k rest (fwd + 1) fAck
      (Outcome.matched r res :: p.1, p.2)
    | none =>
      let remaining : Int := (total : Int) - ((fwd : Int) + (fAck : Int))
      if remaining > (k : Int) then
        let p := processEmails filters user sendOk total k rest fwd (fAck + 1)
        (Outcome.forceAcked :: p.1, p.2)
      else
        let p := processEmails filters user sendOk total k rest fwd fAck
        (Outcome.leftUnseen :: p.1, p.2)

/-- Oracle for the IMAP store's behaviour during one cycle: whether the
`IMAP4_SSL` constructor succeeds, whether `login`/`select` succeed, whether
`search` answers `'OK'`, and which messages are delivered (per-message
fetch failures are skipped by the code and elided here). -/
structure StoreBehavior where
  connectOk : Bool
  loginOk : Bool
  searchOk : Bool
  msgs : List InboundMsg
deriving DecidableEq, Repr

/-- What `EmailPoller.fetch_unseen_emails` hands back: whether a live
session was returned (`mail is not None`), the fetched messages, and - for
resource accounting - whether the underlying socket was ever opened
(i.e. the `IMAP4_SSL` constructor succeeded). -/
structure FetchOutcome where
  mailReturned : Bool
  emails : List InboundMsg
  connOpened : Bool
deriving DecidableEq, Repr

/-- `EmailPoller.fetch_unseen_emails`: any exception is caught and turned
into `return None, []`. If the exception occurs after the `IMAP4_SSL`
constructor succeeded (e.g. `login` fails), the opened connection is
dropped without `close`/`logout`. A non-`'OK'` search result returns the
live session with no messages. -/
def fetch_unseen_emails (store : StoreBehavior) : FetchOutcome :=
  if !store.connectOk then
    { mailReturned := false, emails := [], connOpened := false }
  else if !store.loginOk then
    { mailReturned := false, emails := [], connOpened := true }
  else if !store.searchOk then
    { mailReturned := true, emails := [], connOpened := true }
  else
    { mailReturned := true, emails := store.msgs, connOpened := true }

/-- Observable result of one `EmailPoller.fetch_emails` cycle:
`forwarded` is `forward_acked_count`, `forceAcked` is `force_acked_count`,
`outcomes` the per-message outcomes in fetch order, and
`connOpened`/`connClosed` whether a store socket was opened during the
cycle and whether `mail.close(); mail.logout()` was executed at its end. -/
structure CycleResult where
  forwarded : Nat
  forceAcked : Nat
  outcomes : List Outcome
  connOpened : Bool
  connClosed : Bool
deriving DecidableEq, Repr

/-- Marker for an exception escaping `fetch_emails` into `_poll_loop`;
every failure path of `fetch_emails` handles its error internally, so the
model never produces it, which is exactly the point proved about the
store-failure scenario. -/
abbrev CycleError := Unit

/-- `EmailPoller.fetch_emails`: one full cycle. Non-IMAP transports warn and
no-op; a `None` session from `fetch_unseen_emails` warns and returns (note:
without closing whatever socket may have been opened); an empty fetch
returns through the `try`, whose `finally` closes the session; otherwise
the messages are processed in order and the `finally` closes the session. -/
def fetch_emails (cfg : Config) (store : StoreBehavior) (sendOk : InboundMsg → Bool) :
    Except CycleError CycleResult :=
  if lowerStr cfg.transport ≠ ("imap".toList) then
    Except.ok { forwarded := 0, forceAcked := 0, outcomes := [],
                connOpened := false, connClosed := false }
  else
    let keep_unseen_count := cfg.keep_unseen_count.getD 100
    let f := fetch_unseen_emails store
    if !f.mailReturned then
      Except.ok { forwarded := 0, forceAcked := 0, outcomes := [],
                  connOpened := f.connOpened, connClosed := false }
    else if f.emails.isEmpty then
      Except.ok { forwarded := 0, forceAcked := 0, outcomes := [],
                  connOpened := f.connOpened, connClosed := true }
    else
      let p := processEmails cfg.filters cfg.smtp_user sendOk f.emails.length
        keep_unseen_count f.emails 0 0
      Except.ok { forwarded := p.2.1, forceAcked := p.2.2, outcomes := p.1,
                  connOpened := f.connOpened, connClosed := true }

/-- The sleep chosen by one iteration of `EmailPoller._poll_loop`: when
`fetch_emails` returns normally, the loop sleeps the configured fetch
interval in one-second steps; when it raises, the `except` branch sleeps a
fixed 60 seconds before retrying. -/
def poll_delay (cfg : Config) (store : StoreBehavior) (sendOk : InboundMsg → Bool) : Nat :=
  match fetch_emails cfg store sendOk with
  | Except.ok _ => cfg.fetch_interval_seconds
  | Except.error _ => 60

/-- Scheduler state of `EmailPoller`: the `running` flag and the worker
thread handle (`none` before the first `start`; `some alive` afterwards,
where `alive` models `thread.is_alive()`). -/
structure PollerState where
  running : Bool
  thread : Option Bool
deriving DecidableEq, Repr

/-- `EmailPoller.start`: on an already-running poller, log a warning and
return unchanged (the returned flag records whether a new worker thread was
spawned); otherwise set `running` and spawn the worker. -/
def pollerStart (s : PollerState) : PollerState × Bool :=
  if s.running then (s, false)
  else ({ running := true, thread := some true }, true)

/-- `EmailPoller.stop`: clear `running`, then `join` the worker if one is
alive. The worker loop re-checks `running` at least once per second, so the
join returns once the worker has observed the cleared flag and exited;
after `stop` the thread handle is no longer alive. -/
def pollerStop (s : PollerState) : PollerState :=
  { running := false, thread := s.thread.map (fun _ => false) }

example :
    (fetch_emails
      { transport := ("IMAP".toList), fetch_interval_seconds := 5,
        select_folder := ("INBOX".toList), keep_unseen_count := some 1,
        filters := [], smtp_user := ("me@relay".toList) }
      { connectOk := true, loginOk := true, searchOk := true,
        msgs := [{ senderName := [], senderEmail := ("a@b.c".toList), subject := none,
                   body := .single ("text/plain".toList) (some ("x".toList)) },
                 { senderName := [], senderEmail := ("d@e.f".toList), subject := none,
                   body := .single ("text/plain".toList) (some ("y".toList)) }] }
      (fun _ => true)).map (fun r => (r.forwarded, r.forceAcked))
    = Except.ok (0, 1) := by rfl

/-- Inverting one step of an `Except` bind chain. -/
theorem exceptBind_ok {α β ε : Type} {x : Except ε α} {f : α → Except ε β} {b : β}
    (h : (x >>= f) = Except.ok b) : ∃ a, x = Except.ok a ∧ f a = Except.ok b := by
  cases x with
  | error e => simp [Bind.bind, Except.bind] at h
  | ok a => exact ⟨a, rfl, by simpa [Bind.bind, Except.bind] using h⟩

/-- A successful header store returns the value unchanged, and the value is
CR/LF-free. -/
theorem setHeader_ok {v w : Str} (h : setHeader v = Except.ok w) :
    w = v ∧ headerClean v = true := by
  unfold setHeader at h
  by_cases hc : headerClean v
  · simp [hc] at h; exact ⟨h.symm, hc⟩
  · simp [hc] at h

/-- The cycle loop produces one outcome per fetched message. -/
theorem processEmails_length (filters : List Rule) (user : Str)
    (sendOk : InboundMsg → Bool) (total k : Nat) (msgs : List InboundMsg)
    (fwd fAck : Nat) :
    (processEmails filters user sendOk total k msgs fwd fAck).1.length = msgs.length := by
  induction msgs generalizing fwd fAck with
  | nil => rfl
  | cons m rest ih =>
    unfold processEmails
    cases hm : matchFirst filters m with
    | some r => simpa using ih (fwd + 1) fAck
    | none =>
      by_cases hgt : ((total : Int) - ((fwd : Int) + (fAck : Int)) > (k : Int))
      · simpa [hgt] using ih fwd (fAck + 1)
      · simpa [hgt] using ih fwd fAck

def C1rule : Rule :=
  { sender_email_contains := some [("boss@co".toList)],
    action := some ("forward".toList), forward_to := some ("me@x".toList) }

def C1msg : InboundMsg :=
  { senderName := ("Boss".toList), senderEmail := ("boss@co.example".toList),
    subject := some ("Report".toList),
    body := .single ("text/plain".toList) (some ("hello".toList)) }

def C1cfg : Config :=
  { transport := ("imap".toList), fetch_interval_seconds := 30,
    select_folder := ("INBOX".toList), keep_unseen_count := some 100,
    filters := [C1rule], smtp_user := ("relay@smtp".toList) }

def C1store : StoreBehavior :=
  { connectOk := true, loginOk := true, searchOk := true, msgs := [C1msg] }

/-- C1: the claim says a matched "forward" message is marked seen only if
the relay send succeeded. The code violates this: `forward_email` catches
the SMTP send exception internally and returns normally, so
`_execute_action` goes on to call `ack_email` even for a failed send. On a
cycle whose only message matches a forward rule and whose relay send fails
(`sendOk = false`), the recorded send flag is `false` and yet the message
is marked seen. -/
theorem C1_sendFailure_still_marked_seen :
    (fetch_emails C1cfg C1store (fun _ => false)).map
      (fun r => (r.outcomes.map markedSeen, r.outcomes.map sentFlag))
    = Except.ok ([true], [some false]) := by rfl

def C2cfg : Config :=
  { transport := ("imap".toList), fetch_interval_seconds := 5,
    select_folder := ("INBOX".toList), keep_unseen_count := some 100,
    filters := [C1rule], smtp_user := ("relay@smtp".toList) }

def C2storeFail : StoreBehavior :=
  { connectOk := false, loginOk := true, searchOk := true, msgs := [] }

/-- C2, counterexample: with a fetch interval of 5 and a failing store
connection, the next cycle starts after the regular 5-second fetch interval
and not after the 60-second cooldown, because the connection error is
handled inside `fetch_unseen_emails` and no exception ever reaches
`_poll_loop`'s `except` branch. -/
theorem C2_counterexample :
    poll_delay C2cfg C2storeFail (fun _ => true) = C2cfg.fetch_interval_seconds ∧
    poll_delay C2cfg C2storeFail (fun _ => true) ≠ 60 := by
  constructor
  · rfl
  · intro h
    simp [poll_delay, fetch_emails, fetch_unseen_emails, C2cfg, C2storeFail] at h

/-- C2, amended: when the store connection fails, the cycle produces zero
forwards and zero force-acknowledgments and no exception escapes the worker
loop, but the next cycle starts after the regular configured fetch interval;
the 60-second cooldown is reserved for exceptions that escape
`fetch_emails`, which a store-connection failure does not. -/
theorem C2_store_failure_waits_fetch_interval (cfg : Config) (store : StoreBehavior)
    (sendOk : InboundMsg → Bool) (h : store.connectOk = false) :
    fetch_emails cfg store sendOk =
      Except.ok { forwarded := 0, forceAcked := 0, outcomes := [],
                  connOpened := false, connClosed := false } ∧
    poll_delay cfg store sendOk = cfg.fetch_interval_seconds := by
  have hf : fetch_unseen_emails store =
      { mailReturned := false, emails := [], connOpened := false } := by
    simp [fetch_unseen_emails, h]
  have hfe : fetch_emails cfg store sendOk =
      Except.ok { forwarded := 0, forceAcked := 0, outcomes := [],
                  connOpened := false, connClosed := false } := by
    unfold fetch_emails
    by_cases ht : lowerStr cfg.transport = ("imap".toList) <;> simp [ht, hf]
  exact ⟨hfe, by simp [poll_delay, hfe]⟩

/-- Witness for C2: the amended statement applied to the concrete failing
store above. -/
theorem C2_witness :
    fetch_emails C2cfg C2storeFail (fun _ => true) =
      Except.ok { forwarded := 0, forceAcked := 0, outcomes := [],
                  connOpened := false, connClosed := false } ∧
    poll_delay C2cfg C2storeFail (fun _ => true) = C2cfg.fetch_interval_seconds :=
  C2_store_failure_waits_fetch_interval C2cfg C2storeFail (fun _ => true) rfl

def C4store : StoreBehavior :=
  { connectOk := true, loginOk := false, searchOk := true, msgs := [] }

/-- C4: the claim says the store connection is closed and released at cycle
end even when an error occurs after it is established. The code violates
this: when `login` raises after `IMAP4_SSL` has opened the connection,
`fetch_unseen_emails`'s blanket `except` returns `(None, [])`, so
`fetch_emails` sees no session to close and the opened connection is never
`close`d or `logout`ed. -/
theorem C4_login_failure_leaks_connection :
    fetch_unseen_emails C4store =
      { mailReturned := false, emails := [], connOpened := true } ∧
    (fetch_emails C1cfg C4store (fun _ => true)).map
      (fun r => (r.connOpened, r.connClosed)) = Except.ok (true, false) := by
  exact ⟨rfl, rfl⟩

/-- C9: `start()` on an already-running scheduler is a no-op that spawns no
second worker; `stop()` sets the running flag false, leaves no live worker
(the join returns only after the worker loop has observed the cleared flag
and exited), and is idempotent. -/
theorem C9_start_stop_lifecycle (s : PollerState) :
    (s.running = true → pollerStart s = (s, false)) ∧
    (pollerStop s).running = false ∧
    (pollerStop s).thread ≠ some true ∧
    pollerStop (pollerStop s) = pollerStop s := by
  refine ⟨fun h => by simp [pollerStart, h], rfl, ?_, ?_⟩
  · cases h : s.thread <;> simp [pollerStop, h]
  · cases h : s.thread <;> simp [pollerStop, h]

/-- Witness for C9 at a concrete running state. -/
theorem C9_witness :
    pollerStart { running := true, thread := some true } =
      ({ running := true, thread := some true }, false) ∧
    pollerStop (pollerStop { running := true, thread := some true }) =
      pollerStop { running := true, thread := some true } :=
  ⟨(C9_start_stop_lifecycle { running := true, thread := some true }).1 rfl,
   (C9_start_stop_lifecycle { running := true, thread := some true }).2.2.2⟩

/-- C10: a configuration without the `keep_unseen_count` key neither fails
at startup nor at runtime; the backlog ceiling silently defaults to 100
(`self.config['pull_email'].get('keep_unseen_count', 100)`) and the whole
cycle behaves exactly as if `keep_unseen_count = 100` had been configured. -/
theorem C10_keep_unseen_defaults_to_100 (cfg : Config) (store : StoreBehavior)
    (sendOk : InboundMsg → Bool) (h : cfg.keep_unseen_count = none) :
    cfg.keep_unseen_count.getD 100 = 100 ∧
    fetch_emails cfg store sendOk =
      fetch_emails { cfg with keep_unseen_count := some 100 } store sendOk := by
  refine ⟨by simp [h], ?_⟩
  unfold fetch_emails
  simp [h]

/-- Witness for C10 at a concrete configuration with the key omitted. -/
theorem C10_witness :
    fetch_emails { C1cfg with keep_unseen_count := none } C1store (fun _ => true) =
      fetch_emails { { C1cfg with keep_unseen_count := none } with
                     keep_unseen_count := some 100 } C1store (fun _ => true) :=
  (C10_keep_unseen_defaults_to_100 { C1cfg with keep_unseen_count := none }
    C1store (fun _ => true) rfl).2

/-- C5: every header value of a successfully composed forwarded message is
free of carriage returns and linefeeds, even when the original Subject or
From header contains embedded newlines: Subject and the From display name
are passed through `sanitize_header`, and any residual CR/LF in a header
value (e.g. a `parseaddr`-extracted address with a quoted newline, used
verbatim as `Reply-To`) makes the `EmailMessage` header store raise, so no
message with a CR/LF header is ever composed. -/
theorem C5_composed_headers_no_crlf (msg : InboundMsg) (user forward_to : Str)
    (out : OutMsg) (h : composeForward msg user forward_to = Except.ok out) :
    headerClean out.from_ = true ∧ headerClean out.toAddr = true ∧
    headerClean out.subject = true ∧ headerClean out.replyTo = true := by
  unfold composeForward at h
  obtain ⟨fromV, h1, h⟩ := exceptBind_ok h
  obtain ⟨toV, h2, h⟩ := exceptBind_ok h
  obtain ⟨subjV, h3, h⟩ := exceptBind_ok h
  obtain ⟨replyToV, h4, h⟩ := exceptBind_ok h
  obtain ⟨hv1, hc1⟩ := setHeader_ok h1
  obtain ⟨hv2, hc2⟩ := setHeader_ok h2
  obtain ⟨hv3, hc3⟩ := setHeader_ok h3
  obtain ⟨hv4, hc4⟩ := setHeader_ok h4
  simp only [Except.ok.injEq] at h
  subst h
  exact ⟨by rw [hv1]; exact hc1, by rw [hv2]; exact hc2,
         by rw [hv3]; exact hc3, by rw [hv4]; exact hc4⟩

def C5msg : InboundMsg :=
  { senderName := ("Bo\nss".toList), senderEmail := ("boss@co.x".toList),
    subject := some ("Hi\nthere\r".toList),
    body := .single ("text/plain".toList) (some ("hello".toList)) }

/-- Witness for C5: a message whose Subject and sender display name contain
embedded newlines composes successfully and every composed header value is
CR/LF-free. -/
theorem C5_witness :
    ∃ out, composeForward C5msg ("me@relay".toList) ("dest@x".toList) = Except.ok out ∧
      (headerClean out.from_ = true ∧ headerClean out.toAddr = true ∧
       headerClean out.subject = true ∧ headerClean out.replyTo = true) := by
  cases hres : composeForward C5msg ("me@relay".toList) ("dest@x".toList) with
  | error e =>
    have hok : (composeForward C5msg ("me@relay".toList) ("dest@x".toList)).isOk = true := by
      decide
    rw [hres] at hok
    simp [Except.isOk, Except.toBool] at hok
  | ok out =>
    exact ⟨out, rfl, C5_composed_headers_no_crlf C5msg _ _ out hres⟩

/-- `find?` returns the first element satisfying the predicate: everything
before it in the list fails the predicate. -/
theorem find?_first_some {α : Type} (p : α → Bool) (l : List α) (r : α)
    (h : l.find? p = some r) :
    p r = true ∧ ∃ pre post, l = pre ++ r :: post ∧ ∀ x ∈ pre, p x = false := by
  induction l with
  | nil => simp [List.find?] at h
  | cons a rest ih =>
    by_cases ha : p a
    · rw [List.find?_cons_of_pos _ ha] at h
      obtain rfl : a = r := by simpa using h
      exact ⟨ha, [], rest, rfl, by simp⟩
    · rw [List.find?_cons_of_neg _ ha] at h
      obtain ⟨hp, pre, post, hl, hpre⟩ := ih h
      refine ⟨hp, a :: pre, post, by simp [hl], ?_⟩
      intro x hx
      rcases List.mem_cons.mp hx with hxa | hxp
      · subst hxa; simpa using ha
      · exact hpre x hxp

/-- C6: rule matching is first-match-wins over the ordered rule list,
returning `none` when no rule matches (in particular on an empty list);
a rule without the `sender_email_contains` key (an unknown predicate kind)
never matches; and a rule with the key matches exactly when some listed
substring occurs, case-sensitively, in the address-only part of the parsed
From header. The matcher is a pure function of the message and rule list. -/
theorem C6_rule_matching (msg : InboundMsg) (filters : List Rule) :
    (matchFirst filters msg = none ↔ ∀ r ∈ filters, match_rule msg r = false) ∧
    (∀ r, matchFirst filters msg = some r →
      match_rule msg r = true ∧
      ∃ pre post, filters = pre ++ r :: post ∧ ∀ x ∈ pre, match_rule msg x = false) ∧
    (∀ rule, rule.sender_email_contains = none → match_rule msg rule = false) ∧
    (∀ rule conds, rule.sender_email_contains = some conds →
      (match_rule msg rule = true ↔ ∃ c ∈ conds, c <:+: msg.senderEmail)) := by
  refine ⟨?_, ?_, ?_, ?_⟩
  · rw [matchFirst, List.find?_eq_none]
    constructor
    · intro h r hr
      simpa using h r hr
    · intro h r hr
      simp [h r hr]
  · intro r h
    exact find?_first_some _ _ _ h
  · intro rule h
    simp [match_rule, h]
  · intro rule conds h
    simp [match_rule, h, strContains, List.any_eq_true, decide_eq_true_eq]

def C6msg : InboundMsg :=
  { senderName := [], senderEmail := ("alerts@Bank.example".toList), subject := none,
    body := .single ("text/plain".toList) (some ("x".toList)) }

def C6ruleUnknown : Rule :=
  { sender_email_contains := none, action := some ("forward".toList),
    forward_to := some ("me@x".toList) }

def C6rule : Rule :=
  { sender_email_contains := some [("nomatch".toList), ("@Bank.".toList)],
    action := some ("forward".toList), forward_to := some ("me@x".toList) }

/-- Witness for C6: the unknown-predicate rule never matches, and the
substring rule matches the concrete sender address. -/
theorem C6_witness :
    match_rule C6msg C6ruleUnknown = false ∧ match_rule C6msg C6rule = true :=
  ⟨(C6_rule_matching C6msg []).2.2.1 C6ruleUnknown rfl,
   ((C6_rule_matching C6msg []).2.2.2 C6rule _ rfl).mpr
     ⟨("@Bank.".toList), by simp, by decide⟩⟩

/-- The payload of the first non-attachment, payload-bearing part of the
given content type - the claim's reading of "keeps the first plain-text
part and the first HTML part encountered (skipping attachment-flagged
parts)". -/
def firstPartPayload (ty : Str) (parts : List EmailPart) : Option Str :=
  (parts.find? (fun q =>
    decide (isAttachment q = false ∧ partUsable q = true ∧ q.content_type = ty))).bind
    (fun q => q.payload)

theorem firstPartPayload_cons (ty : Str) (p : EmailPart) (rest : List EmailPart) :
    firstPartPayload ty (p :: rest) =
      if isAttachment p = false ∧ partUsable p = true ∧ p.content_type = ty then p.payload
      else firstPartPayload ty rest := by
  by_cases hc : isAttachment p = false ∧ partUsable p = true ∧ p.content_type = ty
  · rw [if_pos hc]
    unfold firstPartPayload
    rw [List.find?_cons_of_pos _ (by simpa using hc)]
    rfl
  · rw [if_neg hc]
    unfold firstPartPayload
    rw [List.find?_cons_of_neg _ (by simpa using hc)]

/-- Definitional unfolding of one step of the part walk. -/
theorem walkParts_cons (p : EmailPart) (rest : List EmailPart) (t h : Option Str) :
    walkParts (p :: rest) (t, h) =
      if isAttachment p then walkParts rest (t, h)
      else
        match p.payload with
        | none => walkParts rest (t, h)
        | some s =>
          if s.isEmpty then walkParts rest (t, h)
          else if p.content_type = ("text/plain".toList) ∧ t = none then
            walkParts rest (some s, h)
          else if p.content_type = ("text/html".toList) ∧ h = none then
            walkParts rest (t, some s)
          else walkParts rest (t, h) := rfl

/-- The part walk of `forward_email` computes, for each of the two content
types, the initial accumulator if already set and otherwise the payload of
the first matching non-attachment part: first-wins selection that skips
attachments and payload-less parts. -/
theorem walkParts_firstWins (parts : List EmailPart) : ∀ t h,
    walkParts parts (t, h) =
      (t.or (firstPartPayload ("text/plain".toList) parts),
       h.or (firstPartPayload ("text/html".toList) parts)) := by
  induction parts with
  | nil => intro t h; simp [walkParts, firstPartPayload]
  | cons p rest ih =>
    intro t h
    rw [walkParts_cons, firstPartPayload_cons, firstPartPayload_cons]
    by_cases hA : isAttachment p = true
    · have hA2 : ¬ isAttachment p = false := by simp [hA]
      rw [if_pos hA, ih, if_neg (fun hc => hA2 hc.1), if_neg (fun hc => hA2 hc.1)]
    · have hA' : isAttachment p = false := by simpa using hA
      rw [if_neg hA]
      cases hP : p.payload with
      | none =>
        have hU : ¬ partUsable p = true := by simp [partUsable, hP]
        simp only [hP]
        rw [ih, if_neg (fun hc => hU hc.2.1), if_neg (fun hc => hU hc.2.1)]
      | some s =>
        simp only [hP]
        by_cases hE : s.isEmpty
        · have hU : ¬ partUsable p = true := by simp [partUsable, hP, hE]
          rw [if_pos hE, ih, if_neg (fun hc => hU hc.2.1), if_neg (fun hc => hU hc.2.1)]
        · have hU : partUsable p = true := by simp [partUsable, hP, hE]
          rw [if_neg hE]
          by_cases hPl : p.content_type = ("text/plain".toList)
          · have hH : ¬(p.content_type = ("text/html".toList)) := by
              rw [hPl]; decide
            by_cases hT : t = none
            · subst hT
              rw [if_pos ⟨hPl, rfl⟩, ih, if_pos ⟨hA', hU, hPl⟩,
                if_neg (fun hc => hH hc.2.2)]
              exact rfl
            · obtain ⟨a, rfl⟩ : ∃ a, t = some a := by
                cases t with
                | none => exact absurd rfl hT
                | some a => exact ⟨a, rfl⟩
              rw [if_neg (fun hc => Option.noConfusion hc.2),
                if_neg (fun hc => hH hc.1), ih, if_pos ⟨hA', hU, hPl⟩,
                if_neg (fun hc => hH hc.2.2)]
              exact rfl
          · by_cases hH : p.content_type = ("text/html".toList)
            · by_cases hHn : h = none
              · subst hHn
                rw [if_neg (fun hc => hPl hc.1), if_pos ⟨hH, rfl⟩, ih,
                  if_neg (fun hc => hPl hc.2.2), if_pos ⟨hA', hU, hH⟩]
                exact rfl
              · obtain ⟨b, rfl⟩ : ∃ b, h = some b := by
                  cases h with
                  | none => exact absurd rfl hHn
                  | some b => exact ⟨b, rfl⟩
                rw [if_neg (fun hc => hPl hc.1),
                  if_neg (fun hc => Option.noConfusion hc.2), ih,
                  if_neg (fun hc => hPl hc.2.2), if_pos ⟨hA', hU, hH⟩]
                exact rfl
            · rw [if_neg (fun hc => hPl hc.1), if_neg (fun hc => hH hc.1), ih,
                if_neg (fun hc => hPl hc.2.2), if_neg (fun hc => hH hc.2.2)]

/-- The forwarded-message footer is never empty (it ends with a literal
newline after the subject line). -/
theorem footer_ne_nil (msg : InboundMsg) : footer msg ≠ [] := by
  intro hcon
  rw [footer] at hcon
  obtain ⟨-, h2⟩ := List.append_eq_nil.mp hcon
  exact List.cons_ne_nil _ _ h2

/-- C7: body assembly of the composed forward. The part walk keeps the
first plain-text payload and the first HTML payload encountered, skipping
attachment-flagged and payload-less parts (first conjunct); when neither
plain-text nor HTML content is found the text body is the literal
placeholder `"Empty content"` followed by the footer; the footer block is a
suffix of the plain-text body unconditionally; and the composed plain-text
body is never empty. -/
theorem C7_body_assembly :
    (∀ (parts : List EmailPart) t h,
      walkParts parts (t, h) =
        (t.or (firstPartPayload ("text/plain".toList) parts),
         h.or (firstPartPayload ("text/html".toList) parts))) ∧
    (∀ (msg : InboundMsg) (user forward_to : Str) (out : OutMsg),
      composeForward msg user forward_to = Except.ok out →
      ((bodyContents msg.body).1 = none → (bodyContents msg.body).2 = none →
        out.textBody = ("Empty content".toList) ++ footer msg) ∧
      (∀ tc, (bodyContents msg.body).1 = some tc →
        out.textBody = tc ++ footer msg) ∧
      (∀ hc, (bodyContents msg.body).2 = some hc →
        out.htmlBody = some (hc ++ footerHtml msg)) ∧
      footer msg <:+ out.textBody ∧
      out.textBody ≠ []) := by
  refine ⟨walkParts_firstWins, ?_⟩
  intro msg user forward_to out h
  unfold composeForward at h
  obtain ⟨fromV, h1, h⟩ := exceptBind_ok h
  obtain ⟨toV, h2, h⟩ := exceptBind_ok h
  obtain ⟨subjV, h3, h⟩ := exceptBind_ok h
  obtain ⟨replyToV, h4, h⟩ := exceptBind_ok h
  simp only [Except.ok.injEq] at h
  subst h
  refine ⟨?_, ?_, ?_, ?_, ?_⟩
  · intro htc hhc
    simp [htc, hhc]
  · intro tc htc
    have : ¬((bodyContents msg.body).1 = none ∧ (bodyContents msg.body).2 = none) := by
      intro hcontra
      rw [hcontra.1] at htc
      exact Option.noConfusion htc
    simp [this, htc]
  · intro hc hhc
    simp [hhc]
  · exact List.suffix_append _ _
  · intro hcontra
    obtain ⟨-, h2⟩ := List.append_eq_nil.mp hcontra
    exact footer_ne_nil msg h2

def C7msg : InboundMsg :=
  { senderName := ("Pat".toList), senderEmail := ("pat@x.co".toList),
    subject := some ("News".toList),
    body := .multipart
      [{ content_type := ("text/plain".toList),
         content_disposition := some ("attachment; filename=a.txt".toList),
         payload := some ("att".toList) },
       { content_type := ("text/html".toList), content_disposition := none,
         payload := some ("<p>first html</p>".toList) },
       { content_type := ("text/plain".toList), content_disposition := none,
         payload := none },
       { content_type := ("text/html".toList), content_disposition := none,
         payload := some ("<p>second html</p>".toList) }] }

/-- Witness for C7: a multipart message whose only usable parts are HTML
(the first plain part is an attachment, the second has no payload) composes
with the first HTML payload kept, a footer-suffixed non-empty text body,
and no plain-text content. -/
theorem C7_witness :
    ∃ out, composeForward C7msg ("me@relay".toList) ("dest@x".toList) = Except.ok out ∧
      (out.htmlBody = some (("<p>first html</p>".toList) ++ footerHtml C7msg) ∧
       footer C7msg <:+ out.textBody ∧ out.textBody ≠ []) := by
  cases hres : composeForward C7msg ("me@relay".toList) ("dest@x".toList) with
  | error e =>
    have hok : (composeForward C7msg ("me@relay".toList) ("dest@x".toList)).isOk = true := by
      decide
    rw [hres] at hok
    simp [Except.isOk, Except.toBool] at hok
  | ok out =>
    obtain ⟨-, -, hhtml, hsuf, hne⟩ :=
      (C7_body_assembly.2 C7msg ("me@relay".toList) ("dest@x".toList) out hres)
    exact ⟨out, rfl, hhtml ("<p>first html</p>".toList) (by decide), hsuf, hne⟩

/-- C8: every message processed in a cycle is handled by exactly one path.
The outcome list is in one-to-one positional correspondence with the
fetched messages; a matched message's outcome is the action path for its
first matching rule (so it is never force-acknowledged); an unmatched
message is either force-acknowledged or left unseen. -/
theorem C8_outcome_partition (filters : List Rule) (user : Str)
    (sendOk : InboundMsg → Bool) (total k : Nat) (msgs : List InboundMsg)
    (fwd fAck : Nat) :
    (processEmails filters user sendOk total k msgs fwd fAck).1.length = msgs.length ∧
    (∀ m o, (m, o) ∈ msgs.zip (processEmails filters user sendOk total k msgs fwd fAck).1 →
      ((∀ r, matchFirst filters m = some r →
        o = Outcome.matched r (execute_action r m user (sendOk m)) ∧
        o ≠ Outcome.forceAcked) ∧
       (matchFirst filters m = none →
        o = Outcome.forceAcked ∨ o = Outcome.leftUnseen))) := by
  refine ⟨processEmails_length filters user sendOk total k msgs fwd fAck, ?_⟩
  induction msgs generalizing fwd fAck with
  | nil => intro m o hmem; simp [processEmails] at hmem
  | cons m0 rest ih =>
    intro m o hmem
    cases hm : matchFirst filters m0 with
    | some r0 =>
      simp only [processEmails, hm] at hmem
      rcases List.mem_cons.mp hmem with hhead | htail
      · obtain ⟨rfl, rfl⟩ : m = m0 ∧ o = Outcome.matched r0 (execute_action r0 m0 user (sendOk m0)) := by
          exact ⟨congrArg Prod.fst hhead, congrArg Prod.snd hhead⟩
        constructor
        · intro r hr
          rw [hm] at hr
          obtain rfl : r0 = r := by simpa using hr
          exact ⟨rfl, by simp⟩
        · intro hnone
          rw [hm] at hnone
          exact Option.noConfusion hnone
      · exact ih (fwd + 1) fAck m o htail
    | none =>
      simp only [processEmails, hm] at hmem
      by_cases hgt : ((total : Int) - ((fwd : Int) + (fAck : Int)) > (k : Int))
      · rw [if_pos hgt] at hmem
        rcases List.mem_cons.mp hmem with hhead | htail
        · obtain ⟨rfl, rfl⟩ : m = m0 ∧ o = Outcome.forceAcked :=
            ⟨congrArg Prod.fst hhead, congrArg Prod.snd hhead⟩
          constructor
          · intro r hr
            rw [hm] at hr
            exact Option.noConfusion hr
          · intro _
            exact Or.inl rfl
        · exact ih fwd (fAck + 1) m o htail
      · rw [if_neg hgt] at hmem
        rcases List.mem_cons.mp hmem with hhead | htail
        · obtain ⟨rfl, rfl⟩ : m = m0 ∧ o = Outcome.leftUnseen :=
            ⟨congrArg Prod.fst hhead, congrArg Prod.snd hhead⟩
          constructor
          · intro r hr
            rw [hm] at hr
            exact Option.noConfusion hr
          · intro _
            exact Or.inr rfl
        · exact ih fwd fAck m o htail

def C8msg : InboundMsg :=
  { senderName := [], senderEmail := ("n@u.v".toList), subject := none,
    body := .single ("text/plain".toList) (some ("z".toList)) }

/-- Witness for C8: with no rules, a single unmatched message over
`keep_unseen_count = 0` is force-acknowledged - one of the two unmatched
outcomes the partition allows. -/
theorem C8_witness :
    (processEmails [] [] (fun _ => true) 1 0 [C8msg] 0 0).1 = [Outcome.forceAcked] ∧
    (Outcome.forceAcked = Outcome.forceAcked ∨ Outcome.forceAcked = Outcome.leftUnseen) :=
  ⟨by decide,
   ((C8_outcome_partition [] [] (fun _ => true) 1 0 [C8msg] 0 0).2 C8msg
     Outcome.forceAcked (by decide)).2 rfl⟩

/-- A run of matched messages at the front of the cycle: each one takes the
action path and bumps `forward_acked_count`, leaving `force_acked_count`
untouched, so processing `M ++ rest` from `(fwd, fAck)` continues on `rest`
from `(fwd + M.length, fAck)` after `M.length` matched outcomes. -/
theorem processEmails_matched_run (filters : List Rule) (user : Str)
    (sendOk : InboundMsg → Bool) (total k : Nat) (rest : List InboundMsg) :
    ∀ (M : List InboundMsg), (∀ m ∈ M, (matchFirst filters m).isSome = true) →
    ∀ fwd fAck,
    ∃ outsM : List Outcome, outsM.length = M.length ∧
      processEmails filters user sendOk total k (M ++ rest) fwd fAck =
        (outsM ++ (processEmails filters user sendOk total k rest (fwd + M.length) fAck).1,
         (processEmails filters user sendOk total k rest (fwd + M.length) fAck).2) := by
  intro M
  induction M with
  | nil => intro hM fwd fAck; exact ⟨[], rfl, by simp⟩
  | cons m M' ih =>
    intro hM fwd fAck
    obtain ⟨r, hr⟩ : ∃ r, matchFirst filters m = some r := by
      have hsome := hM m (by simp)
      cases hmm : matchFirst filters m with
      | none => rw [hmm] at hsome; simp at hsome
      | some r => exact ⟨r, rfl⟩
    obtain ⟨outsM', hlen, heq⟩ :=
      ih (fun x hx => hM x (List.mem_cons_of_mem _ hx)) (fwd + 1) fAck
    refine ⟨Outcome.matched r (execute_action r m user (sendOk m)) :: outsM',
      by simp [hlen], ?_⟩
    have hstep : (m :: M') ++ rest = m :: (M' ++ rest) := rfl
    rw [hstep]
    simp only [processEmails, hr]
    rw [heq]
    have harith : fwd + 1 + M'.length = fwd + (m :: M').length := by
      simp [List.length_cons]; omega
    rw [harith]
    simp

/-- A run of unmatched messages processed from a state in which `r` fetched
messages are not yet accounted for (`fwd + fAck + r = total`): the first
`min |U| (r - k)` of them are force-acknowledged and the rest left unseen,
`forward_acked_count` is unchanged, and `force_acked_count` grows by that
same count. -/
theorem processEmails_unmatched_run (filters : List Rule) (user : Str)
    (sendOk : InboundMsg → Bool) (total k : Nat) :
    ∀ (U : List InboundMsg), (∀ m ∈ U, matchFirst filters m = none) →
    ∀ fwd fAck r, fwd + fAck + r = total →
    processEmails filters user sendOk total k U fwd fAck =
      (List.replicate (min U.length (r - k)) Outcome.forceAcked ++
         List.replicate (U.length - min U.length (r - k)) Outcome.leftUnseen,
       fwd, fAck + min U.length (r - k)) := by
  intro U
  induction U with
  | nil => intro hU fwd fAck r hr; simp [processEmails]
  | cons u U' ih =>
    intro hU fwd fAck r hr
    have hu : matchFirst filters u = none := hU u (by simp)
    have hcast : (fwd : Int) + (fAck : Int) + (r : Int) = (total : Int) := by
      exact_mod_cast hr
    simp only [processEmails, hu]
    by_cases hgt : ((total : Int) - ((fwd : Int) + (fAck : Int)) > (k : Int))
    · rw [if_pos hgt]
      have hrk : k < r := by omega
      have ih' := ih (fun x hx => hU x (List.mem_cons_of_mem _ hx))
        fwd (fAck + 1) (r - 1) (by omega)
      rw [ih']
      have hmin : min (u :: U').length (r - k) = min U'.length (r - 1 - k) + 1 := by
        simp [List.length_cons]; omega
      rw [hmin]
      simp only [List.replicate_succ, List.cons_append, List.length_cons]
      have e1 : U'.length + 1 - (U'.length ⊓ (r - 1 - k) + 1) =
          U'.length - U'.length ⊓ (r - 1 - k) := by omega
      have e2 : fAck + (U'.length ⊓ (r - 1 - k) + 1) =
          fAck + 1 + U'.length ⊓ (r - 1 - k) := by omega
      rw [e1, e2]
    · rw [if_neg hgt]
      have hrk : r ≤ k := by omega
      have h0 : r - k = 0 := by omega
      have ih' := ih (fun x hx => hU x (List.mem_cons_of_mem _ hx)) fwd fAck r hr
      rw [ih']
      simp [h0, List.replicate_succ]

/-- C3, amended: in a cycle whose matched messages all precede its unmatched
messages in fetch order (in particular in a cycle where nothing matches),
exactly `max(0, n - k)` of the `n` unmatched messages are force-acknowledged
(`n - k` in truncated Nat subtraction), and they are the earliest unmatched
ones in fetch order: the unmatched outcomes are a block of force-acks
followed by a block of left-unseen. -/
theorem C3_ack_policy_matched_first (cfg : Config) (store : StoreBehavior)
    (sendOk : InboundMsg → Bool) (M U : List InboundMsg)
    (htrans : lowerStr cfg.transport = ("imap".toList))
    (hconn : store.connectOk = true) (hlogin : store.loginOk = true)
    (hsearch : store.searchOk = true) (hmsgs : store.msgs = M ++ U)
    (hM : ∀ m ∈ M, (matchFirst cfg.filters m).isSome = true)
    (hU : ∀ m ∈ U, matchFirst cfg.filters m = none) :
    ∃ res, fetch_emails cfg store sendOk = Except.ok res ∧
      res.forwarded = M.length ∧
      res.forceAcked = U.length - cfg.keep_unseen_count.getD 100 ∧
      res.outcomes.drop M.length =
        List.replicate (U.length - cfg.keep_unseen_count.getD 100) Outcome.forceAcked ++
        List.replicate (min U.length (cfg.keep_unseen_count.getD 100)) Outcome.leftUnseen := by
  have hfetch : fetch_unseen_emails store =
      { mailReturned := true, emails := M ++ U, connOpened := true } := by
    simp [fetch_unseen_emails, hconn, hlogin, hsearch, hmsgs]
  cases hMU : M ++ U with
  | nil =>
    obtain ⟨hM0, hU0⟩ := List.append_eq_nil.mp hMU
    subst hM0
    subst hU0
    refine ⟨{ forwarded := 0, forceAcked := 0, outcomes := [],
              connOpened := true, connClosed := true }, ?_, by simp, by simp, by simp⟩
    simp [fetch_emails, hfetch, htrans]
  | cons x xs =>
    have hne : (M ++ U).isEmpty = false := by rw [hMU]; rfl
    have hfe : fetch_emails cfg store sendOk =
        Except.ok
          { forwarded := (processEmails cfg.filters cfg.smtp_user sendOk (M ++ U).length
              (cfg.keep_unseen_count.getD 100) (M ++ U) 0 0).2.1,
            forceAcked := (processEmails cfg.filters cfg.smtp_user sendOk (M ++ U).length
              (cfg.keep_unseen_count.getD 100) (M ++ U) 0 0).2.2,
            outcomes := (processEmails cfg.filters cfg.smtp_user sendOk (M ++ U).length
              (cfg.keep_unseen_count.getD 100) (M ++ U) 0 0).1,
            connOpened := true, connClosed := true } := by
      simp [fetch_emails, hfetch, hne, htrans]
    obtain ⟨outsM, hlen, heq⟩ :=
      processEmails_matched_run cfg.filters cfg.smtp_user sendOk (M ++ U).length
        (cfg.keep_unseen_count.getD 100) U M hM 0 0
    have hrun :=
      processEmails_unmatched_run cfg.filters cfg.smtp_user sendOk (M ++ U).length
        (cfg.keep_unseen_count.getD 100) U hU (0 + M.length) 0 U.length
        (by rw [List.length_append]; omega)
    rw [hrun] at heq
    refine ⟨_, hfe, ?_, ?_, ?_⟩
    · rw [heq]
      simp
    · rw [heq]
      simp
    · rw [heq]
      have e1 : min U.length (U.length - cfg.keep_unseen_count.getD 100) =
          U.length - cfg.keep_unseen_count.getD 100 := by omega
      have e2 : U.length - (U.length - cfg.keep_unseen_count.getD 100) =
          min U.length (cfg.keep_unseen_count.getD 100) := by omega
      simp only [e1, e2, ← hlen]
      simp [List.drop_left]

def C3rule : Rule :=
  { sender_email_contains := some [("boss@co".toList)],
    action := some ("forward".toList), forward_to := some ("me@x".toList) }

def C3u1 : InboundMsg :=
  { senderName := [], senderEmail := ("news@a.x".toList), subject := none,
    body := .single ("text/plain".toList) (some ("a".toList)) }

def C3u2 : InboundMsg :=
  { senderName := [], senderEmail := ("promo@b.x".toList), subject := none,
    body := .single ("text/plain".toList) (some ("b".toList)) }

def C3m3 : InboundMsg :=
  { senderName := [], senderEmail := ("boss@co.x".toList), subject := none,
    body := .single ("text/plain".toList) (some ("c".toList)) }

def C3cfg : Config :=
  { transport := ("imap".toList), fetch_interval_seconds := 30,
    select_folder := ("INBOX".toList), keep_unseen_count := some 1,
    filters := [C3rule], smtp_user := ("relay@smtp".toList) }

def C3store : StoreBehavior :=
  { connectOk := true, loginOk := true, searchOk := true,
    msgs := [C3u1, C3u2, C3m3] }

/-- C3, counterexample: a cycle with `n = 2` unmatched messages,
`keep_unseen_count = 1`, and one matched message arriving after the
unmatched ones force-acknowledges **2** messages, not `max(0, n - k) = 1`:
while the early unmatched messages are processed, the still-unprocessed
matched message inflates `remaining_emails`, so both get acknowledged. -/
theorem C3_counterexample :
    (fetch_emails C3cfg C3store (fun _ => true)).map (fun r => r.forceAcked) =
      Except.ok 2 ∧
    C3store.msgs.countP (fun m => (matchFirst C3cfg.filters m).isNone) = 2 ∧
    C3cfg.keep_unseen_count = some 1 ∧
    ¬((2 : Nat) = max 0 (2 - 1)) := by
  exact ⟨rfl, by decide, rfl, by decide⟩

def C3wM : List InboundMsg := [C3m3]

def C3wU : List InboundMsg := [C3u1, C3u2, C3u2]

def C3wstore : StoreBehavior :=
  { connectOk := true, loginOk := true, searchOk := true,
    msgs := [C3m3, C3u1, C3u2, C3u2] }

/-- Witness for C3: one matched message followed by three unmatched ones
with `keep_unseen_count = 1` - exactly `3 - 1 = 2` force-acks, and they are
the two earliest unmatched messages (the third is left unseen). -/
theorem C3_witness :
    ∃ res, fetch_emails C3cfg C3wstore (fun _ => true) = Except.ok res ∧
      res.forwarded = C3wM.length ∧
      res.forceAcked = C3wU.length - C3cfg.keep_unseen_count.getD 100 ∧
      res.outcomes.drop C3wM.length =
        List.replicate (C3wU.length - C3cfg.keep_unseen_count.getD 100)
          Outcome.forceAcked ++
        List.replicate (min C3wU.length (C3cfg.keep_unseen_count.getD 100))
          Outcome.leftUnseen :=
  C3_ack_policy_matched_first C3cfg C3wstore (fun _ => true) C3wM C3wU
    (by decide) rfl rfl rfl rfl
    (by intro m hm; fin_cases hm; decide)
    (by intro m hm; fin_cases hm <;> decide)
